import Mathlib

/-!
Verification development for the Natural Capture parsing-and-routing pipeline
(`parser.py` and `router.py`).  Messages are modelled as `List Char`; Python
`re` patterns used by the code fall in a small subset (case-insensitive
literals, `\s*`, `\s+`, single-character options, negated-class `+`), which is
embedded by a faithful backtracking matcher with Python's leftmost-then-greedy
`re.search` semantics.  File-system and database writes performed by the
router are modelled by an explicit disk state with error oracles, so that a
branch's `try/except` behaviour is an `Except` computation.
-/

namespace NaturalCapture

/-- Apostrophe character (written by code to keep source free of quote noise). -/
def apoC : Char := Char.ofNat 39

/-- Python `str.strip()` whitespace test, restricted to the ASCII whitespace
characters (space, tab, newline, carriage return, form feed, vertical tab). -/
def pyIsSpace (c : Char) : Bool :=
  c == ' ' || c == '\t' || c == '\n' || c == '\x0d' || c == '\x0c' || c == '\x0b'

/-- Drop leading characters satisfying `p` (left strip). -/
def lstripP (p : Char → Bool) (s : List Char) : List Char :=
  s.dropWhile p

/-- Drop trailing characters satisfying `p` (right strip). -/
def rstripP (p : Char → Bool) (s : List Char) : List Char :=
  (s.reverse.dropWhile p).reverse

/-- Python `message.strip()`: strip whitespace from both ends. -/
def pyStrip (s : List Char) : List Char :=
  rstripP pyIsSpace (lstripP pyIsSpace s)

/-- Quote characters stripped by the quote heuristic: `"` and the apostrophe. -/
def isQuoteChar (c : Char) : Bool :=
  c == '"' || c == apoC

/-- Python `message.strip('"\x27')`: strip all leading and trailing quote
characters from both ends. -/
def stripQuotes (s : List Char) : List Char :=
  rstripP isQuoteChar (lstripP isQuoteChar s)

/-- Python `message.startswith('"') or message.startswith("'")`. -/
def startsWithQuoteChar : List Char → Bool
  | [] => false
  | c :: _ => isQuoteChar c

/-- Element of the regex subset used by the capture patterns: a literal
character (with a case-insensitivity flag), an optional single character
class (`X?`), a greedy star over a class (`P*`), or a greedy plus (`P+`). -/
inductive RElem where
  | lit : Bool → Char → RElem
  | opt : (Char → Bool) → RElem
  | star : (Char → Bool) → RElem
  | plus : (Char → Bool) → RElem

/-- Character comparison for a literal: case-folded when `ci` is set,
mirroring `re.IGNORECASE` on the ASCII letters the patterns use. -/
def charMatches (ci : Bool) (p c : Char) : Bool :=
  if ci then c.toLower == p.toLower else c == p

/-- Backtracking matcher anchored at the head of `s`, returning the number of
characters consumed by the preferred (Python-order: greedy with backtracking)
match, or `none` when the pattern cannot match here.  A greedy quantifier
over a single-character class can only consume a prefix of the maximal run of
class characters, and Python's backtracking tries the longest consumption
first, so `star`/`plus` try each run length from the maximum downwards. -/
def matchEls : List RElem → List Char → Option Nat
  | [], _ => some 0
  | .lit ci p :: rest, s =>
      match s with
      | [] => none
      | c :: s2 => if charMatches ci p c then (matchEls rest s2).map (· + 1) else none
  | .opt p :: rest, s =>
      match s with
      | [] => matchEls rest []
      | c :: s2 =>
          if p c then
            match matchEls rest s2 with
            | some n => some (n + 1)
            | none => matchEls rest (c :: s2)
          else matchEls rest (c :: s2)
  | .star p :: rest, s =>
      (List.range ((s.takeWhile p).length + 1)).reverse.findSome?
        (fun k => (matchEls rest (s.drop k)).map (· + k))
  | .plus p :: rest, s =>
      match s with
      | [] => none
      | c :: s2 =>
          if p c then
            (List.range ((s2.takeWhile p).length + 1)).reverse.findSome?
              (fun k => (matchEls rest (s2.drop k)).map (· + k + 1))
          else none

/-- Auxiliary scan for `re.search`: try each start position left to right. -/
def reSearchAux (p : List RElem) : List Char → Nat → Option (Nat × Nat)
  | [], i =>
      (match matchEls p [] with
       | some n => some (i, n)
       | none => none)
  | c :: t, i =>
      (match matchEls p (c :: t) with
       | some n => some (i, n)
       | none => reSearchAux p t (i + 1))

/-- Python `pattern.search(s)`: leftmost start position, together with the
length of the match there (`group(0) = s[start : start+len]`). -/
def reSearch (p : List RElem) (s : List Char) : Option (Nat × Nat) :=
  reSearchAux p s 0

/-- Case-insensitive literal run, one `RElem.lit true` per pattern char. -/
def litsCI (s : String) : List RElem :=
  s.data.map (RElem.lit true)

/-- Case-sensitive literal run (the URL pattern is compiled without flags). -/
def litsCS (s : String) : List RElem :=
  s.data.map (RElem.lit false)

/-- Pattern element for `\s*`. -/
def wsStar : RElem := RElem.star pyIsSpace

/-- Pattern element for `\s+`. -/
def wsPlus : RElem := RElem.plus pyIsSpace

/-- Pattern element for a case-insensitive optional letter `x?`. -/
def optCI (p : Char) : RElem := RElem.opt (fun c => c.toLower == p.toLower)

/-- Capture types recognised by Natural Capture (`CaptureType` enum). -/
inductive CaptureType where
  | idea
  | todo
  | note
  | reminder
  | bookmark
  | quote
  | task
  | brain_dump
  | unknown
  deriving DecidableEq, Repr

/-- Python `CaptureType.value` strings. -/
def ctypeValue : CaptureType → List Char
  | .idea => "idea".data
  | .todo => "todo".data
  | .note => "note".data
  | .reminder => "reminder".data
  | .bookmark => "bookmark".data
  | .quote => "quote".data
  | .task => "task".data
  | .brain_dump => "brain_dump".data
  | .unknown => "unknown".data

/-- Embedded `CaptureParser.PREFIX_PATTERNS`, in the Python dict's insertion
(iteration) order, with each type's pattern list in source order. -/
def prefTable : List (CaptureType × List (List RElem)) :=
  [ (CaptureType.idea,
      [ litsCI "idea" ++ [wsStar, RElem.lit true ':'],
        litsCI "thought" ++ [wsStar, RElem.lit true ':'],
        litsCI "brainstorm" ++ [wsStar, RElem.lit true ':'],
        litsCI "idea" ++ [optCI 's'] ]),
    (CaptureType.todo,
      [ litsCI "todo" ++ [wsStar, RElem.lit true ':'],
        litsCI "task" ++ [wsStar, RElem.lit true ':'],
        litsCI "to" ++ [RElem.opt (fun c => c == '-' || c == ' ')] ++
          litsCI "do" ++ [wsStar, RElem.lit true ':'] ]),
    (CaptureType.note,
      [ litsCI "note" ++ [wsStar, RElem.lit true ':'],
        litsCI "note" ++ [optCI 's'],
        litsCI "note" ++ [wsPlus] ++ litsCI "to" ++ [wsPlus] ++ litsCI "self" ++
          [wsStar, RElem.lit true ':'],
        litsCI "capture" ++ [wsStar] ++ litsCI "this" ++ [wsStar, RElem.lit true ':'],
        litsCI "remember" ++ [wsPlus] ++ litsCI "that" ++ [wsStar, RElem.lit true ':'] ]),
    (CaptureType.reminder,
      [ litsCI "remind" ++ [wsPlus] ++ litsCI "me" ++ [wsPlus] ++ litsCI "to" ++ [wsPlus],
        litsCI "reminder" ++ [wsStar, RElem.lit true ':'],
        litsCI "don" ++ [RElem.lit true apoC] ++ litsCI "t" ++ [wsPlus] ++
          litsCI "let" ++ [wsPlus] ++ litsCI "me" ++ [wsPlus] ++ litsCI "forget" ++ [wsStar] ]),
    (CaptureType.bookmark,
      [ litsCI "bookmark" ++ [wsStar, RElem.lit true ':'],
        litsCI "link" ++ [wsStar, RElem.lit true ':'],
        litsCI "save" ++ [wsPlus] ++ litsCI "link" ++ [wsStar, RElem.lit true ':'] ]),
    (CaptureType.quote,
      [ litsCI "quote" ++ [wsStar, RElem.lit true ':'],
        litsCI "quotation" ++ [wsStar, RElem.lit true ':'],
        [RElem.lit true '"'] ]),
    (CaptureType.brain_dump,
      [ litsCI "brain" ++ [wsStar] ++ litsCI "dump" ++ [wsStar, RElem.lit true ':'],
        litsCI "let" ++ [wsPlus] ++ litsCI "me" ++ [wsPlus] ++ litsCI "just" ++ [wsPlus] ++
          litsCI "get" ++ [wsPlus] ++ litsCI "this" ++ [wsPlus] ++ litsCI "out",
        litsCI "braindump" ++ [wsStar, RElem.lit true ':'] ]) ]

/-- Embedded `CaptureParser.PHRASE_PATTERNS`, in dict insertion order. -/
def phraseTable : List (CaptureType × List (List RElem)) :=
  [ (CaptureType.todo,
      [ litsCI "i" ++ [wsPlus] ++ litsCI "need" ++ [wsPlus] ++ litsCI "to" ++ [wsPlus],
        litsCI "need" ++ [wsPlus] ++ litsCI "to" ++ [wsPlus],
        litsCI "add" ++ [wsPlus] ++ litsCI "to" ++ [wsPlus] ++ litsCI "my" ++ [wsPlus] ++
          litsCI "list" ]),
    (CaptureType.idea,
      [ litsCI "what" ++ [wsPlus] ++ litsCI "if" ++ [wsPlus],
        litsCI "i" ++ [wsPlus] ++ litsCI "just" ++ [wsPlus] ++ litsCI "realized" ]),
    (CaptureType.note,
      [ litsCI "for" ++ [wsPlus] ++ litsCI "the" ++ [wsPlus] ++ litsCI "record" ]) ]

/-- Embedded `URL_PATTERN = re.compile(r"https?://[^\s]+")`, case-sensitive. -/
def urlPat : List RElem :=
  litsCS "http" ++ [RElem.opt (fun c => c == 's')] ++ litsCS "://" ++
    [RElem.plus (fun c => !pyIsSpace c)]

/-- Parsed capture record (`Capture` dataclass); `pfx` models the Python
field `prefix`. -/
structure Capture where
  capture_type : CaptureType
  content : List Char
  pfx : List Char := []
  project : Option (List Char) := none
  due_date : Option (List Char) := none
  source : List Char := "unknown".data

/-- Try each pattern of one capture type in order; the first whose `search`
succeeds anywhere wins (inner loop of `CaptureParser.parse`). -/
def tryPats : List (List RElem) → List Char → Option (Nat × Nat)
  | [], _ => none
  | p :: ps, s =>
      match reSearch p s with
      | some r => some r
      | none => tryPats ps s

/-- Walk a pattern table in order; first type with a matching pattern wins
(outer loop of `CaptureParser.parse`). -/
def findInTable : List (CaptureType × List (List RElem)) → List Char → Option (CaptureType × Nat × Nat)
  | [], _ => none
  | (t, ps) :: rest, s =>
      match tryPats ps s with
      | some (i, n) => some (t, i, n)
      | none => findInTable rest s

/-- Embedded `CaptureParser.parse`: classification only (the project/due-date
extraction passes are applied by `parseCapture`). -/
def parse (message source : List Char) : Capture :=
  let msg := pyStrip message
  match findInTable prefTable msg with
  | some (t, i, n) =>
      let c1 := pyStrip (msg.drop (i + n))
      { capture_type := t
        content := if c1 = [] then pyStrip (msg.drop n) else c1
        pfx := (msg.drop i).take n
        source := source }
  | none =>
      match findInTable phraseTable msg with
      | some (t, i, _) =>
          { capture_type := t
            content := pyStrip (msg.drop i)
            pfx := []
            source := source }
      | none =>
          if (reSearch urlPat msg).isSome then
            { capture_type := CaptureType.bookmark
              content := msg
              pfx := []
              source := source }
          else if startsWithQuoteChar msg then
            { capture_type := CaptureType.quote
              content := stripQuotes msg
              pfx := []
              source := source }
          else
            { capture_type := CaptureType.note
              content := msg
              pfx := []
              source := source }

/-- Calendar date (proleptic Gregorian, as used by Python `datetime.date`). -/
structure Date where
  year : Nat
  month : Nat
  day : Nat
  deriving DecidableEq, Repr

/-- Gregorian leap-year test. -/
def isLeap (y : Nat) : Bool :=
  (y % 4 == 0 && y % 100 != 0) || y % 400 == 0

/-- Number of days in a month. -/
def daysInMonth (y m : Nat) : Nat :=
  if m == 2 then (if isLeap y then 29 else 28)
  else if m == 4 || m == 6 || m == 9 || m == 11 then 30
  else 31

/-- Successor day in the Gregorian calendar. -/
def nextDay (d : Date) : Date :=
  if d.day < daysInMonth d.year d.month then ⟨d.year, d.month, d.day + 1⟩
  else if d.month < 12 then ⟨d.year, d.month + 1, 1⟩
  else ⟨d.year + 1, 1, 1⟩

/-- Python `date + timedelta(days=n)` for a non-negative day count. -/
def addDays (d : Date) : Nat → Date
  | 0 => d
  | n + 1 => addDays (nextDay d) n

/-- Zero-padded decimal rendering of width `w`. -/
def padNat (w n : Nat) : List Char :=
  List.replicate (w - (Nat.repr n).length) '0' ++ (Nat.repr n).data

/-- Python `date.isoformat()`: `YYYY-MM-DD`. -/
def isoDate (d : Date) : List Char :=
  padNat 4 d.year ++ "-".data ++ padNat 2 d.month ++ "-".data ++ padNat 2 d.day

/-- Embedded `CaptureParser._parse_relative_date`: today's date plus `days`,
rendered in ISO form (the evaluation date is passed explicitly). -/
def parseRelativeDate (today : Date) (days : Nat) : List Char :=
  isoDate (addDays today days)

/-- Due-date keyword patterns, in the source order of `DUE_DATE_PATTERNS`:
`tomorrow` (+1), `today` (+0), `next\s+week` (+7), all case-insensitive. -/
def tomorrowPat : List RElem := litsCI "tomorrow"

/-- Pattern for the `today` keyword. -/
def todayPat : List RElem := litsCI "today"

/-- Pattern for the `next\s+week` keyword. -/
def nextWeekPat : List RElem := litsCI "next" ++ [wsPlus] ++ litsCI "week"

/-- Embedded `CaptureParser.extract_due_date`: first keyword pattern, in
listed order, found anywhere in the content decides the relative offset. -/
def extractDueDate (today : Date) (content : List Char) : Option (List Char) :=
  if (reSearch tomorrowPat content).isSome then some (parseRelativeDate today 1)
  else if (reSearch todayPat content).isSome then some (parseRelativeDate today 0)
  else if (reSearch nextWeekPat content).isSome then some (parseRelativeDate today 7)
  else none

/-- Split a list at the first occurrence of `c`, returning the part before
and the part after; `none` when `c` does not occur. -/
def splitAtFirst (c : Char) : List Char → Option (List Char × List Char)
  | [] => none
  | a :: s =>
      if a == c then some ([], s)
      else (splitAtFirst c s).map (fun r => (a :: r.1, r.2))

/-- Anchored match of `\[Project:\s*([^\]]+)\]` (IGNORECASE) at the head of
`s`, returning `group(1).strip()` on success.  Backtracking between the
greedy `\s*` and `[^\]]+` makes the stripped group equal to the stripped
text between the colon and the first closing bracket, provided that text is
non-empty. -/
def projAt (s : List Char) : Option (List Char) :=
  if (s.take 9).map Char.toLower = "[project:".data then
    match splitAtFirst ']' (s.drop 9) with
    | some (body, _) => if body = [] then none else some (pyStrip body)
    | none => none
  else none

/-- Embedded `CaptureParser.extract_project_tag`: leftmost match of the
project-tag pattern anywhere in the content. -/
def extractProjectTag : List Char → Option (List Char)
  | [] => none
  | c :: t =>
      match projAt (c :: t) with
      | some r => some r
      | none => extractProjectTag t

/-- Embedded `parse_capture`: classify, then run the project-tag and
due-date extraction passes over the resulting content.  The evaluation
date (`datetime.now().date()`) is passed explicitly. -/
def parseCapture (today : Date) (message source : List Char) : Capture :=
  let c := parse message source
  { c with
    project := extractProjectTag c.content
    due_date := extractDueDate today c.content }

/-- Result of routing a capture (`RouteResult` dataclass). -/
structure RouteResult where
  success : Bool
  destination : List Char
  error : Option (List Char) := none
  deriving DecidableEq, Repr

/-- Router configuration after `CaptureRouter.__init__` has joined the
configured paths (fields hold the derived absolute paths). -/
structure CaptureRouter where
  workspace : List Char
  memory_dir : List Char
  ideas_file : List Char
  para_db : List Char

/-- Model of `os.path.join` for one relative or absolute component. -/
def pjoin (a b : List Char) : List Char :=
  match b with
  | '/' :: _ => b
  | _ =>
      match a with
      | [] => b
      | _ => if a.getLast? == some '/' then a ++ b else a ++ '/' :: b

/-- Embedded `CaptureRouter.__init__`. -/
def mkRouter (workspace memory_dir ideas_file para_db : List Char) : CaptureRouter :=
  { workspace := workspace
    memory_dir := pjoin workspace memory_dir
    ideas_file := pjoin (pjoin workspace memory_dir) ideas_file
    para_db := pjoin workspace para_db }

/-- Row inserted into the PARA `tasks` table. -/
structure TaskRow where
  title : List Char
  description : List Char
  category : List Char
  status : List Char
  due : Option Int
  deriving DecidableEq, Repr

/-- Lookup the content of a file on the modelled disk. -/
def fsLookup : List (List Char × List Char) → List Char → Option (List Char)
  | [], _ => none
  | kv :: rest, p => if kv.1 = p then some kv.2 else fsLookup rest p

/-- Append to a file, creating it when absent (Python open mode `"a"`). -/
def fsAppend : List (List Char × List Char) → List Char → List Char → List (List Char × List Char)
  | [], p, s => [(p, s)]
  | kv :: rest, p, s =>
      if kv.1 = p then (kv.1, kv.2 ++ s) :: rest else kv :: fsAppend rest p s

/-- Create or truncate a file (Python open mode `"w"`). -/
def fsWrite : List (List Char × List Char) → List Char → List Char → List (List Char × List Char)
  | [], p, s => [(p, s)]
  | kv :: rest, p, s =>
      if kv.1 = p then (kv.1, s) :: rest else kv :: fsWrite rest p s

/-- Modelled file-system and task-store state, together with error oracles
deciding which write operations raise (disk full, permissions, connectivity,
schema mismatch, ...) and with what exception message. -/
structure Disk where
  files : List (List Char × List Char)
  tasks : List TaskRow
  appendErr : List Char → List Char → Option (List Char)
  createErr : List Char → Option (List Char)
  dbErr : TaskRow → Option (List Char)

/-- Model of `os.path.exists`. -/
def pathExists (d : Disk) (p : List Char) : Bool :=
  (fsLookup d.files p).isSome

/-- Append to a file; a raised exception surfaces as `Except.error` carrying
the message and the (unchanged) disk. -/
def appendFile (d : Disk) (p s : List Char) : Except (List Char × Disk) Disk :=
  match d.appendErr p s with
  | some e => .error (e, d)
  | none => .ok { d with files := fsAppend d.files p s }

/-- Create a file with the given initial content. -/
def createFileWith (d : Disk) (p s : List Char) : Except (List Char × Disk) Disk :=
  match d.createErr p with
  | some e => .error (e, d)
  | none => .ok { d with files := fsWrite d.files p s }

/-- Insert a row into the PARA `tasks` table. -/
def dbInsert (d : Disk) (row : TaskRow) : Except (List Char × Disk) Disk :=
  match d.dbErr row with
  | some e => .error (e, d)
  | none => .ok { d with tasks := d.tasks ++ [row] }

/-- Ambient evaluation-time values (`datetime.now()` renderings and the local
epoch conversion used for due timestamps). -/
structure Env where
  nowDate : Date
  nowStamp : List Char
  nowHM : List Char
  toEpoch : Date → Int

/-- Header written by `CaptureRouter._create_ideas_file`. -/
def ideasHeader : List Char :=
  ("# Ideas & Things to Explore\n\n" ++
   "> Capture interesting things to revisit, analyze, or build.\n\n" ++
   "---\n\n").data

/-- Header written by `CaptureRouter._create_daily_note`. -/
def dailyHeader (date : List Char) : List Char :=
  "# Daily Notes - ".data ++ date ++ "\n\n".data ++ "---\n\n".data

/-- Embedded `CaptureRouter._format_idea`. -/
def formatIdea (env : Env) (c : Capture) (date : List Char) : List Char :=
  let title := if c.content.length > 100 then c.content.take 100 ++ "...".data else c.content
  "\n## ".data ++ date ++ "\n\n".data ++
  "### ".data ++ title ++ "\n".data ++
  "**Captured:** ".data ++ env.nowStamp ++ "\n".data ++
  (if c.source ≠ "unknown".data then "**Source:** ".data ++ c.source ++ "\n".data else []) ++
  (match c.project with
   | some p => if p = [] then [] else "**Project:** ".data ++ p ++ "\n".data
   | none => []) ++
  "\n**Content:**\n\n".data ++ c.content ++ "\n\n".data ++ "---\n".data

/-- Embedded `CaptureRouter._format_note`. -/
def formatNote (env : Env) (c : Capture) : List Char :=
  "\n## ".data ++ env.nowHM ++ " - Note\n\n".data ++
  (if c.source ≠ "unknown".data then "**Source:** ".data ++ c.source ++ "\n\n".data else []) ++
  c.content ++ "\n\n".data

/-- Embedded `CaptureRouter._format_bookmark`: the stripped content is used
as the URL, and the (possibly truncated) URL as the entry title. -/
def formatBookmark (env : Env) (c : Capture) (date : List Char) : List Char :=
  let url := pyStrip c.content
  let title := if url.length > 80 then url.take 80 ++ "...".data else url
  "\n## ".data ++ date ++ " - Bookmark\n\n".data ++
  "### ".data ++ title ++ "\n".data ++
  "**Link:** ".data ++ url ++ "\n".data ++
  "**Captured:** ".data ++ env.nowStamp ++ "\n".data ++
  (if c.source ≠ "unknown".data then "**Source:** ".data ++ c.source ++ "\n".data else []) ++
  "\n---\n".data

/-- Embedded `CaptureRouter._format_quote`. -/
def formatQuote (env : Env) (c : Capture) (date : List Char) : List Char :=
  let title := if c.content.length > 80 then c.content.take 80 ++ "...".data else c.content
  "\n## ".data ++ date ++ " - Quote\n\n".data ++
  "### ".data ++ title ++ "\n".data ++
  "**Quote:** ".data ++ c.content ++ "\n".data ++
  "**Captured:** ".data ++ env.nowStamp ++ "\n".data ++
  (if c.source ≠ "unknown".data then "**Source:** ".data ++ c.source ++ "\n".data else []) ++
  "\n---\n".data

/-- Embedded `CaptureRouter._format_brain_dump`. -/
def formatBrainDump (env : Env) (c : Capture) : List Char :=
  "\n## ".data ++ env.nowHM ++ " - Brain Dump\n\n".data ++
  (if c.source ≠ "unknown".data then "**Source:** ".data ++ c.source ++ "\n\n".data else []) ++
  c.content ++ "\n\n".data

/-- Strict parser for the `YYYY-MM-DD` strings accepted by
`datetime.fromisoformat` in this pipeline; malformed input raises. -/
def parseIsoDate (s : List Char) : Except (List Char) Date :=
  match s with
  | [y1, y2, y3, y4, '-', m1, m2, '-', d1, d2] =>
      if (y1.isDigit && y2.isDigit && y3.isDigit && y4.isDigit &&
          m1.isDigit && m2.isDigit && d1.isDigit && d2.isDigit) then
        let y := (y1.toNat - 48) * 1000 + (y2.toNat - 48) * 100 + (y3.toNat - 48) * 10 + (y4.toNat - 48)
        let m := (m1.toNat - 48) * 10 + (m2.toNat - 48)
        let dd := (d1.toNat - 48) * 10 + (d2.toNat - 48)
        if 1 ≤ m && m ≤ 12 && 1 ≤ dd && dd ≤ daysInMonth y m then .ok ⟨y, m, dd⟩
        else .error ("Invalid isoformat string: ".data ++ s)
      else .error ("Invalid isoformat string: ".data ++ s)
  | _ => .error ("Invalid isoformat string: ".data ++ s)

/-- Try-block of `CaptureRouter._route_idea`. -/
def routeIdeaBody (r : CaptureRouter) (env : Env) (c : Capture) (d : Disk) :
    Except (List Char × Disk) Disk :=
  (if pathExists d r.ideas_file then .ok d
   else createFileWith d r.ideas_file ideasHeader).bind fun d1 =>
    appendFile d1 r.ideas_file (formatIdea env c (isoDate env.nowDate))

/-- Try-block of `CaptureRouter._route_task` (used for todo and task). -/
def routeTaskBody (_r : CaptureRouter) (env : Env) (c : Capture) (d : Disk) :
    Except (List Char × Disk) Disk :=
  ((match c.due_date with
    | none => .ok none
    | some s =>
        match parseIsoDate s with
        | .ok dt => .ok (some (env.toEpoch dt))
        | .error e => .error (e, d) : Except (List Char × Disk) (Option Int))).bind fun ts =>
    dbInsert d ⟨c.content.take 100, c.content, "task".data, "pending".data, ts⟩

/-- Try-block of `CaptureRouter._route_note`. -/
def routeNoteBody (_r : CaptureRouter) (env : Env) (c : Capture) (d : Disk)
    (note_file : List Char) : Except (List Char × Disk) Disk :=
  (if pathExists d note_file then .ok d
   else createFileWith d note_file (dailyHeader (isoDate env.nowDate))).bind fun d1 =>
    appendFile d1 note_file (formatNote env c)

/-- Try-block of `CaptureRouter._route_reminder`. -/
def routeReminderBody (_r : CaptureRouter) (env : Env) (c : Capture) (d : Disk) :
    Except (List Char × Disk) Disk :=
  ((match c.due_date with
    | none => .ok none
    | some s =>
        match parseIsoDate s with
        | .ok dt => .ok (some (env.toEpoch dt))
        | .error e => .error (e, d) : Except (List Char × Disk) (Option Int))).bind fun ts =>
    dbInsert d ⟨c.content.take 100, c.content, "reminder".data, "pending".data, ts⟩

/-- Try-block of `CaptureRouter._route_bookmark`. -/
def routeBookmarkBody (r : CaptureRouter) (env : Env) (c : Capture) (d : Disk) :
    Except (List Char × Disk) Disk :=
  (if pathExists d r.ideas_file then .ok d
   else createFileWith d r.ideas_file ideasHeader).bind fun d1 =>
    appendFile d1 r.ideas_file (formatBookmark env c (isoDate env.nowDate))

/-- Try-block of `CaptureRouter._route_quote`. -/
def routeQuoteBody (r : CaptureRouter) (env : Env) (c : Capture) (d : Disk) :
    Except (List Char × Disk) Disk :=
  (if pathExists d r.ideas_file then .ok d
   else createFileWith d r.ideas_file ideasHeader).bind fun d1 =>
    appendFile d1 r.ideas_file (formatQuote env c (isoDate env.nowDate))

/-- Try-block of `CaptureRouter._route_brain_dump`. -/
def routeBrainDumpBody (_r : CaptureRouter) (env : Env) (c : Capture) (d : Disk)
    (note_file : List Char) : Except (List Char × Disk) Disk :=
  (if pathExists d note_file then .ok d
   else createFileWith d note_file (dailyHeader (isoDate env.nowDate))).bind fun d1 =>
    appendFile d1 note_file (formatBrainDump env c)

/-- Per-day journal path used by the note and brain-dump branches. -/
def dailyNotePath (r : CaptureRouter) (env : Env) : List Char :=
  pjoin r.memory_dir (isoDate env.nowDate ++ ".md".data)

/-- Wrap a branch try-block into the `try/except` shape shared by every
`_route_*` method: success keeps the new disk, a raised exception becomes
`RouteResult(success=False, destination=dest, error=str(e))`. -/
def tryRoute (dest : List Char) (body : Except (List Char × Disk) Disk) :
    RouteResult × Disk :=
  match body with
  | .ok d2 => (⟨true, dest, none⟩, d2)
  | .error (e, d2) => (⟨false, dest, some e⟩, d2)

/-- Embedded `CaptureRouter.route`: dispatch on the capture type. -/
def route (r : CaptureRouter) (env : Env) (c : Capture) (d : Disk) :
    RouteResult × Disk :=
  match c.capture_type with
  | .idea => tryRoute r.ideas_file (routeIdeaBody r env c d)
  | .todo => tryRoute r.para_db (routeTaskBody r env c d)
  | .task => tryRoute r.para_db (routeTaskBody r env c d)
  | .note => tryRoute (dailyNotePath r env) (routeNoteBody r env c d (dailyNotePath r env))
  | .reminder => tryRoute r.para_db (routeReminderBody r env c d)
  | .bookmark => tryRoute r.ideas_file (routeBookmarkBody r env c d)
  | .quote => tryRoute r.ideas_file (routeQuoteBody r env c d)
  | .brain_dump => tryRoute (dailyNotePath r env) (routeBrainDumpBody r env c d (dailyNotePath r env))
  | .unknown =>
      (⟨false, "none".data, some ("Unknown capture type: ".data ++ ctypeValue CaptureType.unknown)⟩, d)

/-- Try-block of the sink branch `route` selects for a capture (identity of
the `_route_*` method dispatched to); for the `unknown` sentinel there is no
sink branch and the body is the trivial success. -/
def branchBody (r : CaptureRouter) (env : Env) (c : Capture) (d : Disk) :
    Except (List Char × Disk) Disk :=
  match c.capture_type with
  | .idea => routeIdeaBody r env c d
  | .todo => routeTaskBody r env c d
  | .task => routeTaskBody r env c d
  | .note => routeNoteBody r env c d (dailyNotePath r env)
  | .reminder => routeReminderBody r env c d
  | .bookmark => routeBookmarkBody r env c d
  | .quote => routeQuoteBody r env c d
  | .brain_dump => routeBrainDumpBody r env c d (dailyNotePath r env)
  | .unknown => .ok d

/-- Intended write target of the sink branch `route` selects for a capture. -/
def intendedDest (r : CaptureRouter) (env : Env) (c : Capture) : List Char :=
  match c.capture_type with
  | .idea => r.ideas_file
  | .todo => r.para_db
  | .task => r.para_db
  | .note => dailyNotePath r env
  | .reminder => r.para_db
  | .bookmark => r.ideas_file
  | .quote => r.ideas_file
  | .brain_dump => dailyNotePath r env
  | .unknown => "none".data

/-! ### Lemmas about the matcher and the pattern tables -/

/-- A successful anchored match at some dropped position makes the scan of
`reSearchAux` succeed. -/
lemma reSearchAux_isSome (p : List RElem) (s : List Char) :
    ∀ (k i : Nat), (matchEls p (s.drop k)).isSome → (reSearchAux p s i).isSome := by
  induction s with
  | nil =>
      intro k i h
      rw [reSearchAux]
      simp only [List.drop_nil] at h
      cases hm : matchEls p [] with
      | some n => simp
      | none => rw [hm] at h; simp at h
  | cons c t ih =>
      intro k i h
      rw [reSearchAux]
      cases hm : matchEls p (c :: t) with
      | some n => simp
      | none =>
          simp only [hm]
          cases k with
          | zero => rw [List.drop_zero, hm] at h; simp at h
          | succ k2 => exact ih k2 (i + 1) (by simpa using h)

/-- Successful search succeeds as an anchored match at the reported start. -/
lemma reSearchAux_eq_some (p : List RElem) (s : List Char) :
    ∀ (j i n : Nat), reSearchAux p s j = some (i, n) →
      j ≤ i ∧ matchEls p (s.drop (i - j)) = some n := by
  induction s with
  | nil =>
      intro j i n h
      rw [reSearchAux] at h
      cases hm : matchEls p [] with
      | some m =>
          rw [hm] at h
          simp only [Option.some.injEq, Prod.mk.injEq] at h
          obtain ⟨h1, h2⟩ := h
          subst h1; subst h2
          simp [hm]
      | none => rw [hm] at h; simp at h
  | cons c t ih =>
      intro j i n h
      rw [reSearchAux] at h
      cases hm : matchEls p (c :: t) with
      | some m =>
          rw [hm] at h
          simp only [Option.some.injEq, Prod.mk.injEq] at h
          obtain ⟨h1, h2⟩ := h
          subst h1; subst h2
          simp [hm]
      | none =>
          rw [hm] at h
          simp only at h
          obtain ⟨hle, hmm⟩ := ih (j + 1) i n h
          refine ⟨Nat.le_of_succ_le hle, ?_⟩
          have hpos : 1 ≤ i - j := by omega
          have : (c :: t).drop (i - j) = t.drop (i - j - 1) := by
            cases hd : i - j with
            | zero => omega
            | succ m => simp
          rw [this]
          have : i - j - 1 = i - (j + 1) := by omega
          rw [this]
          exact hmm

/-- Successful `reSearch` gives an anchored match at the reported start. -/
lemma reSearch_eq_some {p : List RElem} {s : List Char} {i n : Nat}
    (h : reSearch p s = some (i, n)) : matchEls p (s.drop i) = some n := by
  have := reSearchAux_eq_some p s 0 i n h
  simpa using this.2

/-- A match anywhere makes `reSearch` succeed. -/
lemma reSearch_isSome_of_drop {p : List RElem} {s : List Char} {k : Nat}
    (h : (matchEls p (s.drop k)).isSome) : (reSearch p s).isSome :=
  reSearchAux_isSome p s k 0 h

/-- The inner pattern loop succeeds if any pattern in the list searches
successfully. -/
lemma tryPats_isSome_of_mem {pats : List (List RElem)} {p : List RElem} {s : List Char}
    (hp : p ∈ pats) (h : (reSearch p s).isSome) : (tryPats pats s).isSome := by
  induction pats with
  | nil => simp at hp
  | cons q qs ih =>
      rw [tryPats]
      cases hq : reSearch q s with
      | some r => simp
      | none =>
          simp only
          rcases List.mem_cons.mp hp with h1 | h1
          · subst h1; rw [hq] at h; simp at h
          · exact ih h1

/-- The inner pattern loop returns the leftmost-listed pattern that searches
successfully, with its search result. -/
lemma tryPats_first {pats : List (List RElem)} {s : List Char} {i n : Nat}
    (h : tryPats pats s = some (i, n)) :
    ∃ pre p post, pats = pre ++ p :: post ∧ reSearch p s = some (i, n) ∧
      ∀ q ∈ pre, reSearch q s = none := by
  induction pats with
  | nil => simp [tryPats] at h
  | cons q qs ih =>
      rw [tryPats] at h
      cases hq : reSearch q s with
      | some r =>
          rw [hq] at h
          simp only [Option.some.injEq] at h
          subst h
          exact ⟨[], q, qs, by simp, hq, by simp⟩
      | none =>
          rw [hq] at h
          simp only at h
          obtain ⟨pre, p, post, h1, h2, h3⟩ := ih h
          refine ⟨q :: pre, p, post, by simp [h1], h2, ?_⟩
          intro x hx
          rcases List.mem_cons.mp hx with h4 | h4
          · subst h4; exact hq
          · exact h3 x h4

/-- If at least one table entry has a matching pattern, the table walk
succeeds. -/
lemma findInTable_isSome_of_any (table : List (CaptureType × List (List RElem))) (s : List Char)
    (h : table.any (fun e => (tryPats e.2 s).isSome) = true) :
    (findInTable table s).isSome := by
  induction table with
  | nil => simp at h
  | cons e rest ih =>
      obtain ⟨t, ps⟩ := e
      rw [findInTable]
      cases he : tryPats ps s with
      | some r => obtain ⟨i, n⟩ := r; simp
      | none =>
          simp only
          apply ih
          simp only [List.any_cons, Bool.or_eq_true] at h
          rcases h with h1 | h1
          · rw [he] at h1; simp at h1
          · exact h1

/-- If no table entry has a matching pattern, the table walk fails. -/
lemma findInTable_eq_none (table : List (CaptureType × List (List RElem))) (s : List Char)
    (h : table.any (fun e => (tryPats e.2 s).isSome) = false) :
    findInTable table s = none := by
  induction table with
  | nil => simp [findInTable]
  | cons e rest ih =>
      obtain ⟨t, ps⟩ := e
      simp only [List.any_cons, Bool.or_eq_false_iff] at h
      rw [findInTable]
      cases he : tryPats ps s with
      | some r =>
          rw [he] at h
          simp at h
      | none =>
          simp only
          exact ih h.2

/-- The table walk returns the first-listed type with a matching pattern,
together with that type's pattern-list search result. -/
lemma findInTable_first {table : List (CaptureType × List (List RElem))} {s : List Char}
    {t : CaptureType} {i n : Nat}
    (h : findInTable table s = some (t, i, n)) :
    ∃ pre ps post, table = pre ++ (t, ps) :: post ∧ tryPats ps s = some (i, n) ∧
      ∀ e ∈ pre, tryPats e.2 s = none := by
  induction table with
  | nil => simp [findInTable] at h
  | cons e rest ih =>
      obtain ⟨t0, ps0⟩ := e
      rw [findInTable] at h
      cases he : tryPats ps0 s with
      | some r =>
          obtain ⟨i0, n0⟩ := r
          rw [he] at h
          simp only [Option.some.injEq, Prod.mk.injEq] at h
          obtain ⟨h1, h2, h3⟩ := h
          subst h1; subst h2; subst h3
          exact ⟨[], ps0, rest, by simp, he, by simp⟩
      | none =>
          rw [he] at h
          simp only at h
          obtain ⟨pre, ps, post, h1, h2, h3⟩ := ih h
          refine ⟨(t0, ps0) :: pre, ps, post, by simp [h1], h2, ?_⟩
          intro x hx
          rcases List.mem_cons.mp hx with h4 | h4
          · subst h4; exact he
          · exact h3 x h4

/-- The type returned by the table walk is one of the table's keys. -/
lemma findInTable_type_mem {table : List (CaptureType × List (List RElem))} {s : List Char}
    {t : CaptureType} {i n : Nat}
    (h : findInTable table s = some (t, i, n)) : t ∈ table.map Prod.fst := by
  obtain ⟨pre, ps, post, h1, _, _⟩ := findInTable_first h
  subst h1
  simp

/-- Matching a run of case-insensitive literals against a case-equal word
consumes exactly the word and continues with the rest of the pattern. -/
lemma matchEls_lits_append (p : List Char) (rest : List RElem) :
    ∀ (w u : List Char), w.map Char.toLower = p.map Char.toLower →
      matchEls (p.map (RElem.lit true) ++ rest) (w ++ u) =
        (matchEls rest u).map (· + p.length) := by
  induction p with
  | nil =>
      intro w u hw
      have hw0 : w = [] := by simpa using hw
      subst hw0
      cases hm : matchEls rest u <;> simp [hm]
  | cons c p2 ih =>
      intro w u hw
      cases w with
      | nil => simp at hw
      | cons a w2 =>
          simp only [List.map_cons, List.cons.injEq] at hw
          obtain ⟨h1, h2⟩ := hw
          simp only [List.map_cons, List.cons_append, matchEls, charMatches, if_true,
            h1, beq_self_eq_true, List.append_eq]
          rw [ih w2 u h2]
          cases matchEls rest u <;> simp [Nat.add_assoc]

/-- A single optional element always matches (possibly consuming nothing). -/
lemma matchEls_opt_isSome (p : Char → Bool) (u : List Char) :
    (matchEls [RElem.opt p] u).isSome := by
  cases u with
  | nil => simp [matchEls]
  | cons c t =>
      rw [matchEls]
      split
      · rw [matchEls]; simp
      · simp [matchEls]

/-- Stripping a list that starts with a non-space character is non-empty. -/
lemma pyStrip_cons_ne_nil {a : Char} (l : List Char) (h : pyIsSpace a = false) :
    pyStrip (a :: l) ≠ [] := by
  intro hC
  unfold pyStrip lstripP rstripP at hC
  rw [List.dropWhile_cons] at hC
  simp only [h] at hC
  rw [List.reverse_eq_nil_iff] at hC
  rw [List.dropWhile_eq_nil_iff] at hC
  have : a ∈ (a :: l).reverse := by simp
  have := hC a this
  rw [h] at this
  exact Bool.false_ne_true this

/-- When the quote strip empties a list, every character was a quote char. -/
lemma stripQuotes_eq_nil {s : List Char} (h : stripQuotes s = []) :
    ∀ x ∈ s, isQuoteChar x = true := by
  unfold stripQuotes rstripP lstripP at h
  rw [List.reverse_eq_nil_iff, List.dropWhile_eq_nil_iff] at h
  intro x hx
  rcases List.mem_append.mp ((List.takeWhile_append_dropWhile (p := isQuoteChar) (l := s)) ▸ hx) with h1 | h1
  · exact List.mem_takeWhile_imp h1
  · exact h x (List.mem_reverse.mpr h1)

/-- Appending to a modelled file concatenates onto its previous content. -/
lemma fsLookup_fsAppend (files : List (List Char × List Char)) (p s : List Char) :
    fsLookup (fsAppend files p s) p = some ((fsLookup files p).getD [] ++ s) := by
  induction files with
  | nil => simp [fsAppend, fsLookup]
  | cons kv rest ih =>
      rw [fsAppend]
      by_cases hk : kv.1 = p
      · simp [fsLookup, hk]
      · simp [fsLookup, hk, ih]

/-- Dispatch shape of `route` away from the `unknown` sentinel: each branch
is its try-block wrapped in the shared `try/except` conversion, aimed at the
branch's intended write target. -/
lemma route_eq_branch (r : CaptureRouter) (env : Env) (c : Capture) (d : Disk)
    (h : c.capture_type ≠ CaptureType.unknown) :
    route r env c d = tryRoute (intendedDest r env c) (branchBody r env c d) := by
  cases hc : c.capture_type
  case unknown => exact absurd hc h
  all_goals simp only [route, branchBody, intendedDest, hc]

/-- Decidable test: some registered prefix pattern matches the text. -/
def anyPrefMatches (s : List Char) : Bool :=
  prefTable.any (fun e => (tryPats e.2 s).isSome)

/-- Decidable test: some registered phrase pattern matches the text. -/
def anyPhraseMatches (s : List Char) : Bool :=
  phraseTable.any (fun e => (tryPats e.2 s).isSome)

/-- C1.  For every input whose trimmed text matches a registered prefix
pattern, `parse` classifies by walking the prefix table in the fixed type
order `idea, todo, note, reminder, bookmark, quote, brain_dump` (and, within
a type, its patterns in listed order); the first matching rule wins, the
returned `capture_type` is that rule's type, and the returned prefix is the
exact substring matched by that rule. -/
theorem c1_pref_first_match_wins (msg src : List Char)
    (h : anyPrefMatches (pyStrip msg) = true) :
    ∃ t i n pre ps post,
      findInTable prefTable (pyStrip msg) = some (t, i, n) ∧
      prefTable = pre ++ (t, ps) :: post ∧
      (∀ e ∈ pre, tryPats e.2 (pyStrip msg) = none) ∧
      (∃ pp p posp, ps = pp ++ p :: posp ∧ reSearch p (pyStrip msg) = some (i, n) ∧
        ∀ q ∈ pp, reSearch q (pyStrip msg) = none) ∧
      (parse msg src).capture_type = t ∧
      (parse msg src).pfx = ((pyStrip msg).drop i).take n := by
  have h1 := findInTable_isSome_of_any prefTable (pyStrip msg) h
  rw [Option.isSome_iff_exists] at h1
  obtain ⟨⟨t, i, n⟩, hf⟩ := h1
  obtain ⟨pre, ps, post, he1, he2, he3⟩ := findInTable_first hf
  obtain ⟨pp, p, posp, hp1, hp2, hp3⟩ := tryPats_first he2
  refine ⟨t, i, n, pre, ps, post, hf, he1, he3, ⟨pp, p, posp, hp1, hp2, hp3⟩, ?_, ?_⟩
  · simp [parse, hf]
  · simp [parse, hf]

/-- Witness for C1 at the concrete input `todo: buy milk`, where the winning
rule is the first `todo` pattern and the matched substring is `todo:`. -/
theorem c1_pref_first_match_wins_witness :
    (parse "todo: buy milk".data "telegram".data).capture_type = CaptureType.todo ∧
    (parse "todo: buy milk".data "telegram".data).pfx = "todo:".data := by
  obtain ⟨t, i, n, pre, ps, post, hf, _, _, _, hty, hpfx⟩ :=
    c1_pref_first_match_wins "todo: buy milk".data "telegram".data (by decide)
  have hconc : findInTable prefTable (pyStrip "todo: buy milk".data) =
      some (CaptureType.todo, 0, 5) := by decide
  rw [hconc] at hf
  simp only [Option.some.injEq, Prod.mk.injEq] at hf
  obtain ⟨h1, h2, h3⟩ := hf
  subst h1; subst h2; subst h3
  refine ⟨hty, ?_⟩
  rw [hpfx]
  decide

/-- C2 (amended).  For every trimmed input starting with a quote character
and matched by no higher-precedence rule, `parse` returns a `quote` capture
whose content is the text stripped of all (not just single) leading and
trailing quote characters, mirroring Python `str.strip('"\x27')`. -/
theorem c2_quote_heuristic (msg src : List Char)
    (h1 : anyPrefMatches (pyStrip msg) = false)
    (h2 : anyPhraseMatches (pyStrip msg) = false)
    (h3 : (reSearch urlPat (pyStrip msg)).isSome = false)
    (h4 : startsWithQuoteChar (pyStrip msg) = true) :
    (parse msg src).capture_type = CaptureType.quote ∧
    (parse msg src).content = stripQuotes (pyStrip msg) := by
  have hp := findInTable_eq_none prefTable (pyStrip msg) h1
  have hq := findInTable_eq_none phraseTable (pyStrip msg) h2
  constructor <;> simp [parse, hp, hq, h3, h4]

/-- Witness for C2 (amended) at a concrete singly-quoted input. -/
theorem c2_quote_heuristic_witness :
    (parse [apoC, 'h', 'i', apoC] "telegram".data).capture_type = CaptureType.quote ∧
    (parse [apoC, 'h', 'i', apoC] "telegram".data).content = ['h', 'i'] := by
  obtain ⟨ht, hc⟩ := c2_quote_heuristic [apoC, 'h', 'i', apoC] "telegram".data
    (by decide) (by decide) (by decide) (by decide)
  refine ⟨ht, ?_⟩
  rw [hc]
  decide

/-- Refinement of the spec's words for C2: strip a single leading and a
single trailing quote character (if present) on each side.

Modelled from the spec: this is the behaviour the specification describes,
written here only to compare it against the code's `str.strip` semantics. -/
def stripOneQuoteEachSide (s : List Char) : List Char :=
  let s1 := match s with
    | c :: t => if isQuoteChar c then t else c :: t
    | [] => []
  match s1.getLast? with
  | some c => if isQuoteChar c then s1.dropLast else s1
  | none => s1

/-- Input refuting C2 as stated: two leading and two trailing apostrophes. -/
def c2msg : List Char := [apoC, apoC, 'x', apoC, apoC]

/-- Counterexample to C2 as stated: on the input `''x''` every hypothesis of
the claim holds, yet the content is `x` (all quote characters stripped)
rather than the single-strip result `'x'` the claim demands. -/
theorem c2_counterexample :
    startsWithQuoteChar (pyStrip c2msg) = true ∧
    anyPrefMatches (pyStrip c2msg) = false ∧
    anyPhraseMatches (pyStrip c2msg) = false ∧
    (reSearch urlPat (pyStrip c2msg)).isSome = false ∧
    (parse c2msg "telegram".data).capture_type = CaptureType.quote ∧
    (parse c2msg "telegram".data).content ≠ stripOneQuoteEachSide (pyStrip c2msg) := by
  refine ⟨by decide, by decide, by decide, by decide, by decide, by decide⟩

/-- Space characters are fixed by `Char.toLower`. -/
lemma space_toLower_self {a : Char} (h : pyIsSpace a = true) : a.toLower = a := by
  simp only [pyIsSpace, Bool.or_eq_true, beq_iff_eq] at h
  rcases h with ((((h | h) | h) | h) | h) | h <;> subst h <;> decide

/-- A successful match of a pattern headed by a case-insensitive literal
pins the first input character's case class. -/
lemma matchEls_head_litCI {c : Char} {rest : List RElem} {u : List Char} {n : Nat}
    (h : matchEls (RElem.lit true c :: rest) u = some n) :
    ∃ a u2, u = a :: u2 ∧ a.toLower = c.toLower := by
  cases u with
  | nil => simp [matchEls] at h
  | cons a u2 =>
      rw [matchEls] at h
      by_cases hm : charMatches true c a
      · refine ⟨a, u2, rfl, ?_⟩
        simpa [charMatches] using hm
      · rw [if_neg hm] at h
        simp at h

/-- Every phrase pattern begins with a case-insensitive literal whose lower
case is not a whitespace character. -/
lemma phrase_pats_head :
    ∀ e ∈ phraseTable, ∀ p ∈ e.2,
      ∃ c r, p = RElem.lit true c :: r ∧ pyIsSpace c.toLower = false := by
  intro e he p hp
  simp only [phraseTable, List.mem_cons, List.not_mem_nil, or_false] at he
  rcases he with he | he | he
  · subst he
    simp only [List.mem_cons, List.not_mem_nil, or_false] at hp
    rcases hp with hp | hp | hp
    · subst hp; exact ⟨'i', _, rfl, by decide⟩
    · subst hp; exact ⟨'n', _, rfl, by decide⟩
    · subst hp; exact ⟨'a', _, rfl, by decide⟩
  · subst he
    simp only [List.mem_cons, List.not_mem_nil, or_false] at hp
    rcases hp with hp | hp
    · subst hp; exact ⟨'w', _, rfl, by decide⟩
    · subst hp; exact ⟨'i', _, rfl, by decide⟩
  · subst he
    simp only [List.mem_cons, List.not_mem_nil, or_false] at hp
    subst hp
    exact ⟨'f', _, rfl, by decide⟩

/-- The character at a successful phrase-match position is not whitespace. -/
lemma phrase_match_head_nonspace {s : List Char} {t : CaptureType} {i n : Nat}
    (h : findInTable phraseTable s = some (t, i, n)) :
    ∃ a u2, s.drop i = a :: u2 ∧ pyIsSpace a = false := by
  obtain ⟨pre, ps, post, h1, h2, h3⟩ := findInTable_first h
  have hmem : (t, ps) ∈ phraseTable := by rw [h1]; simp
  obtain ⟨pp, p, posp, hp1, hp2, hp3⟩ := tryPats_first h2
  have hpmem : p ∈ ps := by rw [hp1]; simp
  obtain ⟨c, r, hc1, hc2⟩ := phrase_pats_head (t, ps) hmem p hpmem
  have hm := reSearch_eq_some hp2
  rw [hc1] at hm
  obtain ⟨a, u2, ha1, ha2⟩ := matchEls_head_litCI hm
  refine ⟨a, u2, ha1, ?_⟩
  by_contra hsp
  rw [Bool.not_eq_false] at hsp
  have hfix := space_toLower_self hsp
  rw [hfix] at ha2
  rw [ha2, hc2] at hsp
  simp at hsp

/-- C3 (amended).  A `Capture` has exactly one `capture_type` by
construction; its content is non-empty unless the input was empty after
trimming, or a prefix match left only whitespace behind both the match end
and the prefix length (e.g. the input `idea:`), or the quote heuristic fired
on an input consisting solely of quote characters. -/
theorem c3_nonempty_content (msg src : List Char)
    (h : (parse msg src).content = []) :
    pyStrip msg = [] ∨
    (∃ t i n, findInTable prefTable (pyStrip msg) = some (t, i, n) ∧
      pyStrip ((pyStrip msg).drop (i + n)) = [] ∧
      pyStrip ((pyStrip msg).drop n) = []) ∨
    (startsWithQuoteChar (pyStrip msg) = true ∧
      ∀ x ∈ pyStrip msg, isQuoteChar x = true) := by
  cases hf : findInTable prefTable (pyStrip msg) with
  | some v =>
      obtain ⟨t, i, n⟩ := v
      have hcontent : (parse msg src).content =
          (if pyStrip ((pyStrip msg).drop (i + n)) = []
           then pyStrip ((pyStrip msg).drop n)
           else pyStrip ((pyStrip msg).drop (i + n))) := by
        simp [parse, hf]
      rw [hcontent] at h
      by_cases hc1 : pyStrip ((pyStrip msg).drop (i + n)) = []
      · rw [if_pos hc1] at h
        exact Or.inr (Or.inl ⟨t, i, n, rfl, hc1, h⟩)
      · rw [if_neg hc1] at h
        exact absurd h hc1
  | none =>
      cases hg : findInTable phraseTable (pyStrip msg) with
      | some v =>
          obtain ⟨t, i, n⟩ := v
          have hcontent : (parse msg src).content = pyStrip ((pyStrip msg).drop i) := by
            simp [parse, hf, hg]
          rw [hcontent] at h
          obtain ⟨a, u2, ha1, ha2⟩ := phrase_match_head_nonspace hg
          rw [ha1] at h
          exact absurd h (pyStrip_cons_ne_nil u2 ha2)
      | none =>
          by_cases hurl : (reSearch urlPat (pyStrip msg)).isSome
          · have hcontent : (parse msg src).content = pyStrip msg := by
              simp [parse, hf, hg, hurl]
            rw [hcontent] at h
            exact Or.inl h
          · by_cases hqt : startsWithQuoteChar (pyStrip msg)
            · have hcontent : (parse msg src).content = stripQuotes (pyStrip msg) := by
                simp [parse, hf, hg, hurl, hqt]
              rw [hcontent] at h
              exact Or.inr (Or.inr ⟨hqt, stripQuotes_eq_nil h⟩)
            · have hcontent : (parse msg src).content = pyStrip msg := by
                simp [parse, hf, hg, hurl, hqt]
              rw [hcontent] at h
              exact Or.inl h

/-- Witness for C3 (amended) at the concrete input `idea:`: the content is
empty and the prefix-consumed disjunct holds. -/
theorem c3_nonempty_content_witness :
    (parse "idea:".data "telegram".data).content = [] ∧
    (pyStrip "idea:".data = [] ∨
     (∃ t i n, findInTable prefTable (pyStrip "idea:".data) = some (t, i, n) ∧
       pyStrip ((pyStrip "idea:".data).drop (i + n)) = [] ∧
       pyStrip ((pyStrip "idea:".data).drop n) = []) ∨
     (startsWithQuoteChar (pyStrip "idea:".data) = true ∧
       ∀ x ∈ pyStrip "idea:".data, isQuoteChar x = true)) :=
  ⟨by decide, c3_nonempty_content "idea:".data "telegram".data (by decide)⟩

/-- Counterexample to C3 as stated: the input `idea:` is non-empty after
trimming, yet the parsed content is empty. -/
theorem c3_counterexample :
    pyStrip "idea:".data ≠ [] ∧
    (parse "idea:".data "telegram".data).content = [] :=
  ⟨by decide, by decide⟩

/-! ### C6, C7, C10: extraction passes and the bare-word idea rule -/

/-- C6 (amended).  Whenever the parsed capture's content contains the word
`tomorrow` (case-insensitively), the full classification sets `due_date` to
the evaluation date plus one day, in ISO `YYYY-MM-DD` form; the keyword is
decisive because `tomorrow` is the first entry of `DUE_DATE_PATTERNS`
(tried in the order `tomorrow`, `today`, `next week`, mapping to +1, +0 and
+7 days). -/
theorem c6_tomorrow (d : Date) (msg src : List Char)
    (h : ∃ a w b, (parse msg src).content = a ++ w ++ b ∧
      w.map Char.toLower = "tomorrow".data) :
    (parseCapture d msg src).due_date = some (isoDate (addDays d 1)) := by
  obtain ⟨a, w, b, hc, hw⟩ := h
  have hsome : (reSearch tomorrowPat ((parse msg src).content)).isSome := by
    apply reSearch_isSome_of_drop (k := a.length)
    rw [hc, List.append_assoc, List.drop_left]
    have hstep := matchEls_lits_append "tomorrow".data [] w b
      (by rw [hw]; decide)
    rw [List.append_nil] at hstep
    have hpat : tomorrowPat = "tomorrow".data.map (RElem.lit true) := rfl
    rw [hpat, hstep]
    simp [matchEls]
  show extractDueDate d ((parse msg src).content) = some (isoDate (addDays d 1))
  rw [extractDueDate, if_pos hsome]
  rfl

/-- Witness for C6 (amended) at a concrete input and evaluation date. -/
theorem c6_tomorrow_witness :
    (parseCapture ⟨2026, 10, 12⟩ "call mom tomorrow".data "telegram".data).due_date =
      some ("2026-10-13".data) := by
  have h := c6_tomorrow ⟨2026, 10, 12⟩ "call mom tomorrow".data "telegram".data
    ⟨"call mom ".data, "tomorrow".data, [], by decide, by decide⟩
  rw [h]
  decide

/-- Counterexample to C6 as stated: the message `tomorrow idea: x` contains
the word `tomorrow`, but the idea prefix match reduces the content to `x`,
so the full classification leaves `due_date` absent instead of setting the
evaluation date plus one day. -/
theorem c6_counterexample :
    (∃ a b, "tomorrow idea: x".data = a ++ "tomorrow".data ++ b) ∧
    (parseCapture ⟨2026, 10, 12⟩ "tomorrow idea: x".data "telegram".data).due_date = none ∧
    (none : Option (List Char)) ≠ some (isoDate (addDays ⟨2026, 10, 12⟩ 1)) :=
  ⟨⟨[], " idea: x".data, by decide⟩, by decide, by decide⟩

/-- Scanning for the project tag returns the value of the leftmost position
where the anchored tag pattern matches. -/
lemma extractProjectTag_eq_some_at {s : List Char} {i : Nat} {r : List Char}
    (h1 : ∀ j, j < i → projAt (s.drop j) = none)
    (h2 : projAt (s.drop i) = some r) :
    extractProjectTag s = some r := by
  induction s generalizing i with
  | nil =>
      rw [List.drop_nil] at h2
      rw [show projAt [] = none from by decide] at h2
      exact absurd h2 (by simp)
  | cons c t ih =>
      cases i with
      | zero =>
          rw [List.drop_zero] at h2
          rw [extractProjectTag, h2]
      | succ i2 =>
          have h0 := h1 0 (Nat.succ_pos i2)
          rw [List.drop_zero] at h0
          rw [extractProjectTag, h0]
          exact ih (i := i2)
            (fun j hj => by
              have := h1 (j + 1) (by omega)
              simpa using this)
            (by simpa using h2)

/-- Prepending unsearched text after the first-found separator keeps the
split's first component. -/
lemma splitAtFirst_append {c : Char} {l z x y : List Char}
    (h : splitAtFirst c l = some (x, y)) :
    splitAtFirst c (l ++ z) = some (x, y ++ z) := by
  induction l generalizing x with
  | nil => simp [splitAtFirst] at h
  | cons a t ih =>
      rw [splitAtFirst] at h
      rw [List.cons_append, splitAtFirst]
      by_cases ha : a == c
      · rw [if_pos ha] at h
        rw [if_pos ha]
        simp only [Option.some.injEq, Prod.mk.injEq] at h
        obtain ⟨h1, h2⟩ := h
        subst h1; subst h2
        rfl
      · rw [if_neg ha] at h
        rw [if_neg ha]
        cases hs : splitAtFirst c t with
        | none => rw [hs] at h; simp at h
        | some v =>
            obtain ⟨x2, y2⟩ := v
            rw [hs] at h
            simp only [Option.map_some', Option.some.injEq, Prod.mk.injEq] at h
            obtain ⟨h1, h2⟩ := h
            subst h1; subst h2
            rw [ih hs]
            rfl

/-- The anchored project-tag matcher at the head of the Atlas test string
extracts `Atlas` regardless of what follows the closing bracket. -/
lemma projAt_atlas (rest : List Char) :
    projAt ("[Project: Atlas] ship the report".data ++ rest) = some ("Atlas".data) := by
  have hsplit : "[Project: Atlas] ship the report".data =
      "[Project:".data ++ " Atlas] ship the report".data := by decide
  rw [hsplit, List.append_assoc, projAt]
  rw [List.take_left' (by decide : ("[Project:".data).length = 9)]
  rw [if_pos (by decide)]
  rw [List.drop_left' (by decide : ("[Project:".data).length = 9)]
  rw [splitAtFirst_append
    (by decide : splitAtFirst ']' " Atlas] ship the report".data =
      some (" Atlas".data, " ship the report".data))]
  rfl

/-- C7 (amended).  The project pass runs over the capture's content: when
the content's leftmost project-tag match is `[Project: Atlas]` (here: the
content contains `[Project: Atlas] ship the report` at position `i` with no
match before it), the capture's `project` is `Atlas`; in general `project`
is the first case-insensitive `[Project: <name>]` match in the content with
the name trimmed. -/
theorem c7_project_from_content (d : Date) (msg src : List Char) (i : Nat)
    (h1 : ∀ j, j < i → projAt (((parse msg src).content).drop j) = none)
    (h2 : ∃ rest, ((parse msg src).content).drop i =
      "[Project: Atlas] ship the report".data ++ rest) :
    (parseCapture d msg src).project = some ("Atlas".data) ∧
    (parseCapture d msg src).project = extractProjectTag ((parse msg src).content) := by
  obtain ⟨rest, hr⟩ := h2
  have hp : projAt (((parse msg src).content).drop i) = some ("Atlas".data) := by
    rw [hr]
    exact projAt_atlas rest
  have he := extractProjectTag_eq_some_at h1 hp
  exact ⟨he, rfl⟩

/-- Witness for C7 (amended) at the concrete message
`[Project: Atlas] ship the report`, which classifies as a note with the full
text as content. -/
theorem c7_project_from_content_witness :
    (parseCapture ⟨2026, 10, 12⟩ "[Project: Atlas] ship the report".data
      "telegram".data).project = some ("Atlas".data) :=
  (c7_project_from_content ⟨2026, 10, 12⟩ "[Project: Atlas] ship the report".data
    "telegram".data 0
    (fun j hj => absurd hj (Nat.not_lt_zero j))
    ⟨[], by decide⟩).1

/-- Counterexample to C7 as stated: the message
`[Project: Atlas] ship the report idea:` contains the required substring,
but the idea prefix match re-slices the content to
`ect: Atlas] ship the report idea:`, which has no project tag, so `project`
is absent rather than `Atlas`. -/
theorem c7_counterexample :
    (∃ a b, "[Project: Atlas] ship the report idea:".data =
      a ++ "[Project: Atlas] ship the report".data ++ b) ∧
    (parseCapture ⟨2026, 10, 12⟩ "[Project: Atlas] ship the report idea:".data
      "telegram".data).project = none :=
  ⟨⟨[], " idea:".data, by decide⟩, by decide⟩

/-- Word-constituent test used to state the bare-word hypothesis of C10. -/
def isWordChar (c : Char) : Bool := c.isAlphanum || c == '_'

/-- Boundary test: the optional adjacent character is not word-constituent. -/
def noWordCharEdge : Option Char → Bool
  | none => true
  | some x => !isWordChar x

/-- C10.  A trimmed input containing the bare word `idea` or `ideas`
anywhere (case-insensitively), even without a colon, classifies as `idea`:
the idea prefix list contains the bare-word pattern `ideas?` and the idea
type is first in the table, so such messages never reach the URL, quote, or
note-default rules. -/
theorem c10_bare_idea_word (msg src : List Char)
    (h : ∃ a w b, pyStrip msg = a ++ w ++ b ∧
      (w.map Char.toLower = "idea".data ∨ w.map Char.toLower = "ideas".data) ∧
      noWordCharEdge a.getLast? = true ∧ noWordCharEdge b.head? = true) :
    (parse msg src).capture_type = CaptureType.idea := by
  obtain ⟨a, w, b, hc, hw, _, _⟩ := h
  have hsome : (reSearch (litsCI "idea" ++ [optCI 's']) (pyStrip msg)).isSome := by
    apply reSearch_isSome_of_drop (k := a.length)
    rw [hc, List.append_assoc, List.drop_left]
    have hw1 : (w.take 4).map Char.toLower = "idea".data := by
      rcases hw with hw | hw <;> rw [List.map_take, hw] <;> decide
    have hsplitw : w ++ b = w.take 4 ++ (w.drop 4 ++ b) := by
      rw [← List.append_assoc, List.take_append_drop]
    rw [hsplitw]
    have hstep := matchEls_lits_append "idea".data [optCI 's'] (w.take 4) (w.drop 4 ++ b)
      (by rw [hw1]; decide)
    rw [show litsCI "idea" ++ [optCI 's'] =
      "idea".data.map (RElem.lit true) ++ [optCI 's'] from rfl]
    rw [hstep]
    have hopt := matchEls_opt_isSome (fun c => c.toLower == 's'.toLower) (w.drop 4 ++ b)
    rw [show ([optCI 's'] : List RElem) =
      [RElem.opt (fun c => c.toLower == 's'.toLower)] from rfl]
    cases hm : matchEls [RElem.opt (fun c => c.toLower == 's'.toLower)] (w.drop 4 ++ b) with
    | none => rw [hm] at hopt; simp at hopt
    | some n => simp [hm]
  rw [Option.isSome_iff_exists] at hsome
  obtain ⟨⟨i, n⟩, htp⟩ := hsome
  have htry : (tryPats [litsCI "idea" ++ [wsStar, RElem.lit true ':'],
      litsCI "thought" ++ [wsStar, RElem.lit true ':'],
      litsCI "brainstorm" ++ [wsStar, RElem.lit true ':'],
      litsCI "idea" ++ [optCI 's']] (pyStrip msg)).isSome := by
    apply tryPats_isSome_of_mem (p := litsCI "idea" ++ [optCI 's'])
    · simp
    · rw [htp]; simp
  rw [Option.isSome_iff_exists] at htry
  obtain ⟨⟨i2, n2⟩, htp2⟩ := htry
  have hfind : findInTable prefTable (pyStrip msg) = some (CaptureType.idea, i2, n2) := by
    rw [prefTable, findInTable, htp2]
  simp [parse, hfind]

/-- Witness for C10 at the concrete input `best ideas win`. -/
theorem c10_bare_idea_word_witness :
    (parse "best ideas win".data "telegram".data).capture_type = CaptureType.idea :=
  c10_bare_idea_word "best ideas win".data "telegram".data
    ⟨"best ".data, "ideas".data, " win".data, by decide,
      Or.inr (by decide), by decide, by decide⟩

/-! ### C4, C5, C8, C9: routing -/

/-- Writing (mode `w`) a modelled file makes its content the written text. -/
lemma fsLookup_fsWrite (files : List (List Char × List Char)) (p s : List Char) :
    fsLookup (fsWrite files p s) p = some s := by
  induction files with
  | nil => simp [fsWrite, fsLookup]
  | cons kv rest ih =>
      rw [fsWrite]
      by_cases hk : kv.1 = p
      · simp [fsLookup, hk]
      · simp [fsLookup, hk, ih]

/-- C4.  Routing a capture whose type is the `unknown` sentinel yields
`success = false`, `destination = "none"`, and the non-empty error string
`Unknown capture type: unknown`; for every other type, a failed routing can
only arise from a caught exception of the selected sink branch (the I/O
try-block), whose message becomes the error and whose intended target stays
the destination. -/
theorem c4_unknown_route (r : CaptureRouter) (env : Env) (c : Capture) (d : Disk) :
    (c.capture_type = CaptureType.unknown →
      route r env c d =
        (⟨false, "none".data,
          some ("Unknown capture type: ".data ++ ctypeValue CaptureType.unknown)⟩, d) ∧
      ("Unknown capture type: ".data ++ ctypeValue CaptureType.unknown) ≠ []) ∧
    (c.capture_type ≠ CaptureType.unknown → (route r env c d).1.success = false →
      ∃ e d2, branchBody r env c d = Except.error (e, d2) ∧
        (route r env c d).1.error = some e ∧
        (route r env c d).1.destination = intendedDest r env c) := by
  constructor
  · intro h
    refine ⟨?_, by decide⟩
    simp [route, h]
  · intro h hfail
    rw [route_eq_branch r env c d h] at hfail ⊢
    cases hb : branchBody r env c d with
    | ok d2 =>
        rw [hb] at hfail
        simp [tryRoute] at hfail
    | error v =>
        obtain ⟨e, d2⟩ := v
        exact ⟨e, d2, rfl, rfl, rfl⟩

/-- Sample router configuration used by concrete routing witnesses. -/
def sampleRouter : CaptureRouter :=
  mkRouter "/home/liam/clawd".data "memory".data "ideas.md".data "memory/para.sqlite".data

/-- Sample ambient time values used by concrete routing witnesses. -/
def sampleEnv : Env :=
  ⟨⟨2026, 10, 12⟩, "2026-10-12 10:00:00".data, "10:00".data, fun _ => 0⟩

/-- Empty disk whose write operations all succeed. -/
def emptyDisk : Disk :=
  ⟨[], [], fun _ _ => none, fun _ => none, fun _ => none⟩

/-- Disk whose ideas journal exists but every append raises `disk full`. -/
def fullDisk : Disk :=
  ⟨[(sampleRouter.ideas_file, ideasHeader)], [],
    fun _ _ => some "disk full".data, fun _ => none, fun _ => none⟩

/-- Witness for C4: an unknown-typed capture is rejected with the fixed
error result on a concrete router, environment and disk. -/
theorem c4_unknown_route_witness :
    route sampleRouter sampleEnv
        { capture_type := CaptureType.unknown, content := "x".data } emptyDisk =
      (⟨false, "none".data,
        some ("Unknown capture type: ".data ++ ctypeValue CaptureType.unknown)⟩, emptyDisk) :=
  ((c4_unknown_route sampleRouter sampleEnv
    { capture_type := CaptureType.unknown, content := "x".data } emptyDisk).1 rfl).1

/-- C5.  Routing never propagates an exception: `route` is a total function
into `RouteResult`, and whenever the selected sink branch's try-block raises
(any formatting, file or store operation fails with message `e`), the result
is `success = false`, the intended write target as destination, and `e` as
the error. -/
theorem c5_exceptions_converted (r : CaptureRouter) (env : Env) (c : Capture) (d : Disk)
    (h : c.capture_type ≠ CaptureType.unknown) :
    ∀ e d2, branchBody r env c d = Except.error (e, d2) →
      route r env c d = (⟨false, intendedDest r env c, some e⟩, d2) := by
  intro e d2 hb
  rw [route_eq_branch r env c d h, hb]
  rfl

/-- Witness for C5: on a disk whose appends raise `disk full`, routing an
idea capture returns the converted failure result instead of propagating. -/
theorem c5_exceptions_converted_witness :
    route sampleRouter sampleEnv
        { capture_type := CaptureType.idea, content := "x".data, source := "telegram".data }
        fullDisk =
      (⟨false, sampleRouter.ideas_file, some "disk full".data⟩, fullDisk) :=
  c5_exceptions_converted sampleRouter sampleEnv
    { capture_type := CaptureType.idea, content := "x".data, source := "telegram".data }
    fullDisk (by decide) "disk full".data fullDisk rfl

/-- C8.  Routing a bookmark capture appends to the ideas journal (creating
it with the header when absent) a specially formatted block in which the
extracted URL (the stripped content) appears both as the entry title and as
the `**Link:**` line; the title is the URL itself whenever the URL is at
most 80 characters (truncated otherwise). -/
theorem c8_bookmark_append (r : CaptureRouter) (env : Env) (c : Capture) (d : Disk)
    (h1 : c.capture_type = CaptureType.bookmark)
    (h2 : pathExists d r.ideas_file = false → d.createErr r.ideas_file = none)
    (h3 : d.appendErr r.ideas_file (formatBookmark env c (isoDate env.nowDate)) = none) :
    ∃ d2, route r env c d = (⟨true, r.ideas_file, none⟩, d2) ∧
      fsLookup d2.files r.ideas_file = some
        ((if pathExists d r.ideas_file then (fsLookup d.files r.ideas_file).getD []
          else ideasHeader) ++ formatBookmark env c (isoDate env.nowDate)) ∧
      formatBookmark env c (isoDate env.nowDate) =
        "\n## ".data ++ isoDate env.nowDate ++ " - Bookmark\n\n".data ++
        "### ".data ++ (if (pyStrip c.content).length > 80
            then (pyStrip c.content).take 80 ++ "...".data
            else pyStrip c.content) ++ "\n".data ++
        "**Link:** ".data ++ pyStrip c.content ++ "\n".data ++
        "**Captured:** ".data ++ env.nowStamp ++ "\n".data ++
        (if c.source ≠ "unknown".data
          then "**Source:** ".data ++ c.source ++ "\n".data else []) ++
        "\n---\n".data ∧
      ((pyStrip c.content).length ≤ 80 →
        (if (pyStrip c.content).length > 80
          then (pyStrip c.content).take 80 ++ "...".data
          else pyStrip c.content) = pyStrip c.content) := by
  have hroute : route r env c d = tryRoute r.ideas_file (routeBookmarkBody r env c d) := by
    simp [route, h1]
  by_cases hex : pathExists d r.ideas_file
  · have hbody : routeBookmarkBody r env c d =
        appendFile d r.ideas_file (formatBookmark env c (isoDate env.nowDate)) := by
      rw [routeBookmarkBody, if_pos hex]
      rfl
    refine ⟨{ d with files := fsAppend d.files r.ideas_file (formatBookmark env c (isoDate env.nowDate)) }, ?_, ?_, rfl, ?_⟩
    · rw [hroute, hbody, appendFile, h3]
      rfl
    · rw [if_pos hex]
      exact fsLookup_fsAppend d.files r.ideas_file _
    · intro hle
      rw [if_neg (by omega)]
  · have hcr := h2 (by rwa [Bool.not_eq_true] at hex)
    have hbody : routeBookmarkBody r env c d =
        appendFile { d with files := fsWrite d.files r.ideas_file ideasHeader }
          r.ideas_file (formatBookmark env c (isoDate env.nowDate)) := by
      rw [routeBookmarkBody, if_neg hex, createFileWith, hcr]
      rfl
    refine ⟨{ d with files := fsAppend (fsWrite d.files r.ideas_file ideasHeader) r.ideas_file (formatBookmark env c (isoDate env.nowDate)) }, ?_, ?_, rfl, ?_⟩
    · rw [hroute, hbody, appendFile]
      rw [show ({ d with files := fsWrite d.files r.ideas_file ideasHeader } : Disk).appendErr
        = d.appendErr from rfl, h3]
      rfl
    · rw [if_neg hex]
      rw [fsLookup_fsAppend]
      rw [fsLookup_fsWrite]
      rfl
    · intro hle
      rw [if_neg (by omega)]

/-- Witness for C8 at a concrete bookmark capture and empty disk: the ideas
journal is created with the header and the formatted bookmark block is
appended. -/
theorem c8_bookmark_append_witness :
    ∃ d2, route sampleRouter sampleEnv
        { capture_type := CaptureType.bookmark,
          content := "https://example.com/article".data,
          source := "telegram".data } emptyDisk =
      (⟨true, sampleRouter.ideas_file, none⟩, d2) ∧
      fsLookup d2.files sampleRouter.ideas_file = some
        (ideasHeader ++ formatBookmark sampleEnv
          { capture_type := CaptureType.bookmark,
            content := "https://example.com/article".data,
            source := "telegram".data } (isoDate sampleEnv.nowDate)) := by
  obtain ⟨d2, hrt, hlk, _, _⟩ := c8_bookmark_append sampleRouter sampleEnv
    { capture_type := CaptureType.bookmark,
      content := "https://example.com/article".data,
      source := "telegram".data } emptyDisk rfl (fun _ => rfl) rfl
  refine ⟨d2, hrt, ?_⟩
  rw [hlk]
  rfl

/-- C9.  The classifier never returns `task` or `unknown` (only the prefix
and phrase table types, `bookmark`, `quote`, and the `note` default are
reachable), so routing a parsed capture always dispatches to a sink branch
and never takes the unknown-type error path. -/
theorem c9_parse_never_task_or_unknown (msg src : List Char) :
    (parse msg src).capture_type ≠ CaptureType.task ∧
    (parse msg src).capture_type ≠ CaptureType.unknown ∧
    ∀ (d : Date) (r : CaptureRouter) (env : Env) (dk : Disk),
      route r env (parseCapture d msg src) dk =
        tryRoute (intendedDest r env (parseCapture d msg src))
          (branchBody r env (parseCapture d msg src) dk) := by
  have hmain : (parse msg src).capture_type ≠ CaptureType.task ∧
      (parse msg src).capture_type ≠ CaptureType.unknown := by
    cases hf : findInTable prefTable (pyStrip msg) with
    | some v =>
        obtain ⟨t, i, n⟩ := v
        have hty : (parse msg src).capture_type = t := by simp [parse, hf]
        have hmem := findInTable_type_mem hf
        rw [hty]
        simp only [prefTable, List.map_cons, List.map_nil, List.mem_cons,
          List.not_mem_nil, or_false] at hmem
        rcases hmem with h | h | h | h | h | h | h <;> subst h <;>
          exact ⟨by decide, by decide⟩
    | none =>
        cases hg : findInTable phraseTable (pyStrip msg) with
        | some v =>
            obtain ⟨t, i, n⟩ := v
            have hty : (parse msg src).capture_type = t := by simp [parse, hf, hg]
            have hmem := findInTable_type_mem hg
            rw [hty]
            simp only [phraseTable, List.map_cons, List.map_nil, List.mem_cons,
              List.not_mem_nil, or_false] at hmem
            rcases hmem with h | h | h <;> subst h <;> exact ⟨by decide, by decide⟩
        | none =>
            by_cases hurl : (reSearch urlPat (pyStrip msg)).isSome
            · have hty : (parse msg src).capture_type = CaptureType.bookmark := by
                simp [parse, hf, hg, hurl]
              rw [hty]
              exact ⟨by decide, by decide⟩
            · by_cases hqt : startsWithQuoteChar (pyStrip msg)
              · have hty : (parse msg src).capture_type = CaptureType.quote := by
                  simp [parse, hf, hg, hurl, hqt]
                rw [hty]
                exact ⟨by decide, by decide⟩
              · have hty : (parse msg src).capture_type = CaptureType.note := by
                  simp [parse, hf, hg, hurl, hqt]
                rw [hty]
                exact ⟨by decide, by decide⟩
  refine ⟨hmain.1, hmain.2, ?_⟩
  intro d r env dk
  have hsame : (parseCapture d msg src).capture_type = (parse msg src).capture_type := rfl
  exact route_eq_branch r env (parseCapture d msg src) dk (by rw [hsame]; exact hmain.2)

end NaturalCapture
